import Mathlib

/-!
Verification of the task-orchestrator core against its specification.

The subject program is a Python task orchestrator (src/orchestrator.py,
src/agents.py, src/main.py): a planning call to a language model produces a
JSON plan, which `TaskOrchestrator.execute_plan` walks step by step,
dispatching each step to one of five agents, threading the previous step's
textual outcome forward as context, auto-saving search results into a
flat-file knowledge store, and broadcasting structured JSON events over a
WebSocket connection manager.

Embedding conventions:

* Decoded JSON values are `JsonValue`; `obj` models a decoded `dict` (keys
  distinct, as produced by `json.loads`).
* Network-bound library calls (Slack client, Twilio, DDGS, the Groq chat
  request, Google calendar) are abstracted as `Except String`-valued
  behaviours: `.ok` is a normal return, `.error e` a raised exception whose
  `str()` is `e`. The repository's own logic around those calls is embedded
  concretely.
* The WebSocket broadcast (`ConnectionManager.broadcast`) is modeled by a
  `Sink : Nat → Bool` saying whether the n-th broadcast call of a run returns
  normally; `false` models `send_text` raising on a dead connection.
* The knowledge directory is a `List (String × String)` of
  filename-to-content records, in listing order.
* Python regexes are embedded as explicit scanners over `List Char` with the
  same leftmost-search, lazy/greedy semantics as the `re` module on the
  pattern in question; `\s` is modeled on the ASCII range.
* Machine-level exceptions keep only their message strings; exact message
  texts of library exceptions are immaterial to every claim and are chosen
  freely.
-/

namespace TaskOrch

/-- A decoded JSON value, the result of `json.loads`. `obj` carries the dict's
bindings in order; keys are distinct for values produced by `json.loads`. -/
inductive JsonValue where
  | null
  | bool (b : Bool)
  | num (n : Int)
  | str (s : String)
  | arr (elems : List JsonValue)
  | obj (fields : List (String × JsonValue))

/-- Python `dict.get` on a decoded JSON object. -/
def dictGet (fields : List (String × JsonValue)) (k : String) : Option JsonValue :=
  match fields with
  | [] => none
  | (k', v) :: rest => if k' = k then some v else dictGet rest k

/-- Python `str()` of a decoded JSON value, as interpolated by f-strings in the
orchestrator. Scalar cases are exact; the container cases are abbreviated
renderings (no claim depends on the rendered text of a container). -/
def pyStr : JsonValue → String
  | .null => "None"
  | .bool true => "True"
  | .bool false => "False"
  | .num n => toString n
  | .str s => s
  | .arr _ => "[...]"
  | .obj _ => "\x7b...\x7d"

/-- Python regex `\s` (and `str.strip()`'s whitespace) on the ASCII range; the
instruction strings exercised are ASCII. -/
def pySpace (c : Char) : Bool :=
  c == ' ' || c == '\t' || c == '\n' || c == '\x0b' || c == '\x0c' || c == '\r'

/-- `[a-zA-Z0-9]` (ASCII, as in the source's character classes). -/
def isAsciiAlnum (c : Char) : Bool := c.isAlpha || c.isDigit

/-- `re.sub(r'[^a-zA-Z0-9]', '_', s)` — filename derivation from a search
query (src/orchestrator.py:118). -/
def sanitizeQuery (s : String) : String :=
  String.mk (s.data.map (fun c => if isAsciiAlnum c then c else '_'))

/-- `re.sub(r'[^a-zA-Z0-9_-]', '_', s)` — filename sanitization in
`KnowledgeAgent.add_knowledge` (src/agents.py:66). -/
def sanitizeFilename (s : String) : String :=
  String.mk (s.data.map (fun c => if isAsciiAlnum c || c == '_' || c == '-' then c else '_'))

/-- Strip characters satisfying `p` from both ends of a list (Python
`str.strip`). -/
def stripSet (p : Char → Bool) (l : List Char) : List Char :=
  ((l.dropWhile p).reverse.dropWhile p).reverse

/-- Python `str.strip()` with no arguments. -/
def pyStrip (s : String) : String := String.mk (stripSet pySpace s.data)

/-- The character set of `strip(": ")` in `CommunicationAgent.run`
(src/agents.py:155). -/
def isColonSpace (c : Char) : Bool := c == ':' || c == ' '

/-- Write-or-overwrite one record of the knowledge directory: writing file `k`
replaces its content if present, else creates it. -/
def storeSet : List (String × String) → String → String → List (String × String)
  | [], k, v => [(k, v)]
  | (k', v') :: rest, k, v =>
    if k' = k then (k, v) :: rest else (k', v') :: storeSet rest k v

/-- The quote class `["\']` of the Slack and knowledge-add regexes: straight
double or straight single quote (and nothing else — in particular not the
curly quotes `“` `”`). -/
def isQuote (c : Char) : Bool := c == '"' || c == '\''

/-- Case-insensitive literal match (`re.IGNORECASE` over ASCII): the literal is
given in lowercase and consumed from the head of the input. -/
def litCI : List Char → List Char → Option (List Char)
  | [], cs => some cs
  | _ :: _, [] => none
  | l :: ls, c :: cs => if c.toLower == l then litCI ls cs else none

/-- `\s+`: one or more whitespace characters, greedily. In every use the next
pattern element is a non-whitespace literal, so the greedy match is exact. -/
def wsPlus : List Char → Option (List Char)
  | [] => none
  | c :: cs => if pySpace c then some (cs.dropWhile pySpace) else none

/-- `\s*`: zero or more whitespace characters, greedily. -/
def wsStar (cs : List Char) : List Char := cs.dropWhile pySpace

/-- Tail of the Slack pattern after the closing quote:
`\s+to\s+(#[^\s]+)`, case-insensitively; returns the captured channel
(including the `#`). -/
def slackTail (cs : List Char) : Option String :=
  match wsPlus cs with
  | none => none
  | some cs1 =>
    match litCI ['t', 'o'] cs1 with
    | none => none
    | some cs2 =>
      match wsPlus cs2 with
      | none => none
      | some ('#' :: rest) =>
        let run := rest.takeWhile (fun c => !pySpace c)
        if run.isEmpty then none else some (String.mk ('#' :: run))
      | some _ => none

/-- The lazy group `(.+?)` of the Slack pattern followed by `["\']` and the
tail: `acc` is the message consumed so far; at each character the scanner
first tries to close the group (shortest match first, as for a lazy
quantifier) and otherwise absorbs the character into the message. `.`
without `re.DOTALL` does not match a newline, so a `'\n'` that cannot close
the group fails the whole attempt (backtracking into the preceding `\s+`
cannot rescue it: a shorter whitespace run leaves a whitespace character
where the quote class must match). -/
def slackMsg (acc : List Char) : List Char → Option (String × String)
  | [] => none
  | c :: cs =>
    if isQuote c && !acc.isEmpty then
      match slackTail cs with
      | some chan => some (String.mk acc, chan)
      | none => slackMsg (acc ++ [c]) cs
    else if c = '\n' then none
    else slackMsg (acc ++ [c]) cs

/-- One anchored attempt of
`Post\s+["\'](.+?)["\']\s+to\s+(#[^\s]+)` (src/agents.py:35) at the head of
the input. -/
def slackAttempt (cs : List Char) : Option (String × String) :=
  match litCI ['p', 'o', 's', 't'] cs with
  | none => none
  | some cs1 =>
    match wsPlus cs1 with
    | none => none
    | some (q :: rest) => if isQuote q then slackMsg [] rest else none
    | some [] => none

/-- `re.search` of the Slack pattern: the attempt at the leftmost position
that succeeds. -/
def slackFind : List Char → Option (String × String)
  | [] => none
  | c :: cs =>
    match slackAttempt (c :: cs) with
    | some r => some r
    | none => slackFind cs

/-- Tail of the knowledge-add pattern after the closing quote:
`\s*in\s+([^\s]+)`, case-insensitively; returns the captured filename. -/
def knowTail (cs : List Char) : Option String :=
  match litCI ['i', 'n'] (wsStar cs) with
  | none => none
  | some cs1 =>
    match wsPlus cs1 with
    | none => none
    | some cs2 =>
      let run := cs2.takeWhile (fun c => !pySpace c)
      if run.isEmpty then none else some (String.mk run)

/-- The lazy group `(.+?)` of the knowledge-add pattern followed by `['\"]`
and the tail; as in `slackMsg`, the dot does not match a newline, so an
unclosable `'\n'` fails the attempt. -/
def knowMsg (acc : List Char) : List Char → Option (String × String)
  | [] => none
  | c :: cs =>
    if isQuote c && !acc.isEmpty then
      match knowTail cs with
      | some file => some (String.mk acc, file)
      | none => knowMsg (acc ++ [c]) cs
    else if c = '\n' then none
    else knowMsg (acc ++ [c]) cs

/-- One anchored attempt of
`knowledge:\s*['\"](.+?)['\"]\s*in\s+([^\s]+)` (src/orchestrator.py:109) at
the head of the input; returns (content, filename). -/
def knowAttempt (cs : List Char) : Option (String × String) :=
  match litCI ['k', 'n', 'o', 'w', 'l', 'e', 'd', 'g', 'e', ':'] cs with
  | none => none
  | some cs1 =>
    match wsStar cs1 with
    | q :: rest => if isQuote q then knowMsg [] rest else none
    | [] => none

/-- `re.search` of the knowledge-add pattern. -/
def knowFind : List Char → Option (String × String)
  | [] => none
  | c :: cs =>
    match knowAttempt (c :: cs) with
    | some r => some r
    | none => knowFind cs

/-- The character class `[\d\s-]` of the phone pattern. -/
def phoneClass (c : Char) : Bool := c.isDigit || pySpace c || c == '-'

/-- The quantified part `[\d\s-]{9,15}` after the leading digit: the greedy
run, capped at 15 and requiring at least 9 class characters (nothing follows
in the pattern, so greedy matching is exact). -/
def phoneRun (pre rest : List Char) : Option (List Char) :=
  if 9 ≤ (rest.takeWhile phoneClass).length
  then some (pre ++ (rest.takeWhile phoneClass).take 15)
  else none

/-- One anchored attempt of `(\+?\d[\d\s-]{9,15})` (src/agents.py:148): an
optional `+` (tried greedily, and given up if no digit follows — after which
`\d` cannot match the `+` itself), a digit, then the quantified class run. -/
def phoneAttempt (cs : List Char) : Option (List Char) :=
  match cs with
  | [] => none
  | c :: rest =>
    if c = '+' then
      match rest with
      | [] => none
      | d :: rest2 => if d.isDigit then phoneRun ['+', d] rest2 else none
    else if c.isDigit then phoneRun [c] rest else none

/-- `re.search` of the phone pattern: leftmost match. -/
def phoneFind : List Char → Option (List Char)
  | [] => none
  | c :: cs =>
    match phoneAttempt (c :: cs) with
    | some m => some m
    | none => phoneFind cs

/-- Recursion core of `lastSeg`, structurally recursive on a fuel bound
(every recursive call shortens the list, so fuel = initial length always
suffices and the `0` fallback is never reached from `lastSeg`). -/
def lastSegF (sep : List Char) : Nat → List Char → List Char
  | _, [] => []
  | 0, l => l
  | fuel + 1, h :: t =>
    if sep = [] then h :: t
    else if sep.isPrefixOf (h :: t) then lastSegF sep fuel (List.drop sep.length (h :: t))
    else if sep <:+: t then lastSegF sep fuel t
    else h :: t

/-- The last element of Python `str.split(sep)`: repeatedly remove everything
up to and including the leftmost occurrence of `sep`; the final segment
contains no occurrence of `sep`. (Python rejects an empty separator; the
separators used here are matched phone numbers, never empty.) -/
def lastSeg (sep l : List Char) : List Char := lastSegF sep l.length l

/-- The text after the leftmost occurrence of `sep` (used only to state what
claim C8's words would compute, for comparison with the source's
`split(...)[-1]`). -/
def afterFirst (sep : List Char) : List Char → List Char
  | [] => []
  | h :: t =>
    if sep.isPrefixOf (h :: t) then List.drop sep.length (h :: t) else afterFirst sep t

/-! ### Agent models (src/agents.py) -/

/-- `SlackAgent.execute` (src/agents.py:33-43). `postMessage` abstracts the
Slack client call `chat_postMessage` (normal return, or a raised exception's
message), applied to (channel, message). -/
def slackExecute (postMessage : String → String → Except String Unit) (action : String) : String :=
  match slackFind action.data with
  | some (msg, channel) =>
    match postMessage channel msg with
    | .ok () => "Message successfully posted to " ++ channel
    | .error e => "Slack Error: " ++ e
  | none => "Slack failed: Ensure format is 'Post \"message\" to #channel'"

/-- The phone-number and body extraction of `CommunicationAgent.run`
(src/agents.py:146-159): the matched group is normalized by removing every
space and hyphen (`replace(" ", "").replace("-", "")`) and prefixing `+` when
absent (`startswith`); the body is `action.split(match)[-1].strip(": ")`
truncated to 160 characters at the `messages.create` call. `none` when no
phone-shaped substring is found. -/
def commParse (action : String) : Option (String × String) :=
  match phoneFind action.data with
  | none => none
  | some m =>
    let cleaned := m.filter (fun c => !(c == ' ' || c == '-'))
    let toNo := if cleaned.head? = some '+' then cleaned else '+' :: cleaned
    let body := (stripSet isColonSpace (lastSeg m action.data)).take 160
    some (String.mk toNo, String.mk body)

/-- `CommunicationAgent.run` (src/agents.py:146-167). `configured` is whether
`self.client` is set (Twilio credentials present at construction); `create`
abstracts `messages.create` applied to (body, to), returning the message SID
or a raised exception's message. -/
def communicationRun (configured : Bool)
    (create : String → String → Except String String) (action : String) : String :=
  match commParse action, configured with
  | some (toNo, body), true =>
    match create body toNo with
    | .ok sid => "SMS sent! SID: " ++ sid
    | .error e => "Twilio Error: " ++ e
  | _, _ => "Communication failed: Ensure phone number is valid."

/-- `KnowledgeAgent._load_knowledge` (src/agents.py:51-61): the concatenation
of every stored record's content followed by a newline, in listing order. -/
def loadKnowledge (store : List (String × String)) : String :=
  String.join (store.map (fun kv => kv.2 ++ "\n"))

/-- `KnowledgeAgent.add_knowledge` (src/agents.py:64-75). `fsError` models an
exception from the file write (`none` = the write succeeds). Returns the new
store and the result message; the stored content is stripped
(`f.write(content.strip())`). -/
def addKnowledge (fsError : Option String) (store : List (String × String))
    (filename content : String) : List (String × String) × String :=
  let safe := sanitizeFilename filename
  match fsError with
  | none =>
    (storeSet store (safe ++ ".txt") (pyStrip content),
     "Knowledge successfully stored in " ++ safe ++ ".txt")
  | some e => (store, "Error saving knowledge: " ++ e)

/-- `KnowledgeAgent.run` (src/agents.py:77-93). `knowledge` is the loaded
text; `lm` abstracts the Groq chat request plus response extraction,
returning the reply content or a raised exception's message. The returned
`Bool` records whether the language-model request was made at all. -/
def knowledgeRun (knowledge : String) (lm : String → Except String String)
    (query : String) : String × Bool :=
  if knowledge = "" then
    ("Knowledge base is empty. I don't have internal info on this.", false)
  else
    let prompt :=
      "Context: " ++ knowledge ++ "\n\nQuestion: " ++ query ++ "\n\nAnswer only based on context:"
    match lm prompt with
    | .ok content => (pyStrip content, true)
    | .error e => ("Knowledge retrieval error: " ++ e, true)

/-! ### Plan acquisition (src/orchestrator.py:45-67) -/

/-- One HTTP response of the planning call. `body` is the result of
`r.json()`: the decoded body, or `none` when the body is not valid JSON (the
decode raises). -/
structure HttpResp where
  status : Nat
  body : Option JsonValue

/-- `requests`' `raise_for_status`: raises for 4xx and 5xx responses. -/
def statusRaises (st : Nat) : Bool := 400 ≤ st

/-- The retry loop of `_groq_request` (src/orchestrator.py:57-63): up to 3
attempts; a 429 sleeps 5 seconds and retries; any other error status raises;
success breaks. When every attempt returns 429 the loop is exhausted and `r`
still holds the final (429) response, which the code then proceeds to use.
`resps i` is the response of attempt `i`. -/
def groqFetch (resps : Nat → HttpResp) : Nat → Nat → Except String HttpResp
  | i, 0 => .ok (resps (i - 1))
  | i, remaining + 1 =>
    let r := resps i
    if r.status = 429 then groqFetch resps (i + 1) remaining
    else if statusRaises r.status then .error ("HTTP error " ++ toString r.status)
    else .ok r

/-- `r.json()["choices"][0]["message"]["content"]` (src/orchestrator.py:65):
every missing key, empty list or ill-typed access raises
(KeyError / IndexError / TypeError). -/
def extractContent (v : JsonValue) : Except String String :=
  match v with
  | .obj fields =>
    match dictGet fields "choices" with
    | some (.arr (first :: _)) =>
      match first with
      | .obj mfields =>
        match dictGet mfields "message" with
        | some (.obj cfields) =>
          match dictGet cfields "content" with
          | some (.str s) => .ok s
          | some _ => .error "TypeError: content is not a string"
          | none => .error "KeyError: content"
        | some _ => .error "TypeError: message is not an object"
        | none => .error "KeyError: message"
      | _ => .error "TypeError: choices element is not an object"
    | some (.arr []) => .error "IndexError: list index out of range"
    | some _ => .error "TypeError: choices is not subscriptable by string"
    | none => .error "KeyError: choices"
  | _ => .error "TypeError: response is not an object"

/-- The final line of `_groq_request` (src/orchestrator.py:67):
`parsed.get("steps", parsed) if isinstance(parsed, dict) else parsed`. -/
def parsePlanResult (parsed : JsonValue) : JsonValue :=
  match parsed with
  | .obj fields => (dictGet fields "steps").getD parsed
  | _ => parsed

/-- `_groq_request` (src/orchestrator.py:45-67). `loads` abstracts
`json.loads` applied to the returned message content; `hasKey` is whether
`GROQ_API_KEY` is set; `resps` gives the HTTP response of each attempt. An
`.error` is an exception that the caller's except block turns into a
"Planning failed" log. -/
def groqRequest (loads : String → Option JsonValue) (hasKey : Bool)
    (resps : Nat → HttpResp) : Except String JsonValue :=
  if !hasKey then .error "Missing GROQ_API_KEY"
  else
    match groqFetch resps 0 3 with
    | .error e => .error e
    | .ok r =>
      match r.body with
      | none => .error "JSONDecodeError: response body is not valid JSON"
      | some v =>
        match extractContent v with
        | .error e => .error e
        | .ok content =>
          match loads content with
          | none => .error "JSONDecodeError: content is not valid JSON"
          | some parsed => .ok (parsePlanResult parsed)

/-- Plan normalization in `execute_plan` (src/orchestrator.py:80):
`if not isinstance(self.plan, list): self.plan = [self.plan]`. -/
def normalizePlan (p : JsonValue) : List JsonValue :=
  match p with
  | .arr steps => steps
  | v => [v]

/-! ### Events and the broadcast sink (src/main.py:40-50) -/

/-- The structured content of the JSON events the orchestrator broadcasts:
`json.dumps` of a log, of the plan, or of a step status update. -/
inductive Event where
  | log (agent : String) (message : String) (logType : String)
  | planEvent (steps : List JsonValue)
  | statusUpdate (stepAction : JsonValue) (status : String)

/-- Behaviour of `ConnectionManager.broadcast` (src/main.py:48-50) across one
run: broadcast calls are numbered in order, and `sink n` says whether the
n-th call returns normally (`false` models `send_text` raising on a dead
connection, which propagates out of `broadcast`). -/
abbrev Sink := Nat → Bool

/-- State threaded through one `execute_plan` run: the knowledge directory,
the events published so far, and the number of broadcast calls made. -/
structure ExecState where
  store : List (String × String)
  events : List Event
  sent : Nat

/-- Record one successfully published event. -/
def pushEvent (e : Event) (s : ExecState) : ExecState :=
  { s with events := s.events ++ [e], sent := s.sent + 1 }

/-- One `await self.ws_manager.broadcast(...)` call: on a sink failure the
exception propagates to the caller and the event is not recorded as
published. -/
def broadcast (sink : Sink) (e : Event) (s : ExecState) : ExecState × Except String Unit :=
  if sink s.sent then (pushEvent e s, .ok ())
  else ({ s with sent := s.sent + 1 }, .error "WebSocket send failed")

/-- External collaborators of one `TaskOrchestrator` run: each field
abstracts one network-bound agent call from src/agents.py as an arbitrary
behaviour (normal result, or a raised exception's message). -/
structure Env where
  /-- `KnowledgeAgent.run` as invoked by the orchestrator (Groq call). -/
  knowledgeCall : String → Except String String
  /-- `SearchAgent.run` (DDGS search; the real method catches its own
  exceptions, so its throwing behaviours are a conservative superset). -/
  searchCall : String → Except String String
  /-- `SlackAgent.execute` (Slack API). -/
  slackCall : String → Except String String
  /-- `CommunicationAgent.run` (Twilio API). -/
  commCall : String → Except String String
  /-- `_parse_calendar_action` composed with `CalendarAgent.run` (wall-clock-
  and Google-API-dependent; abstracted whole). -/
  calendarCall : String → Except String String
  /-- Exception from the `add_knowledge` file write (`none` = writes
  succeed). -/
  fsError : Option String

/-- Coerce a decoded JSON value to the string an agent's regex or `.lower()`
call requires; a non-string raises a TypeError inside the step's try block. -/
def asStr : JsonValue → Except String String
  | .str s => .ok s
  | _ => .error "TypeError: expected string or bytes-like object"

/-- Decidable substring test, for `"add knowledge" in action.lower()`. -/
def containsSub (needle hay : List Char) : Bool := decide (needle <:+: hay)

/-- The dispatch block inside the try of `_execute_step`
(src/orchestrator.py:105-137): select the agent by name, run it, and for a
Search step auto-save the outcome into the knowledge store and publish the
auto-save log. An `.error` is an exception reaching the step's except
block. -/
def dispatch (env : Env) (sink : Sink) (agent action : JsonValue) (s : ExecState) :
    ExecState × Except String String :=
  match agent with
  | .str name =>
    if name = "KnowledgeAgent" then
      match asStr action with
      | .error e => (s, .error e)
      | .ok a =>
        if containsSub "add knowledge".data a.toLower.data then
          match knowFind a.data with
          | some (content, file) =>
            let (store', msg) := addKnowledge env.fsError s.store file content
            ({ s with store := store' }, .ok msg)
          | none => (s, .ok "Parse Error")
        else (s, env.knowledgeCall a)
    else if name = "SearchAgent" then
      match asStr action with
      | .error e => (s, .error e)
      | .ok a =>
        match env.searchCall a with
        | .error e => (s, .error e)
        | .ok msg =>
          let filename := sanitizeQuery (a.take 20)
          let (store', _) := addKnowledge env.fsError s.store filename msg
          let s1 := { s with store := store' }
          let (s2, r) := broadcast sink
            (.log "KnowledgeAgent" ("Auto-saved results for '" ++ a ++ "' to knowledge base.") "info") s1
          match r with
          | .ok () => (s2, .ok msg)
          | .error e => (s2, .error e)
    else if name = "SlackAgent" then
      match asStr action with
      | .error e => (s, .error e)
      | .ok a => (s, env.slackCall a)
    else if name = "CommunicationAgent" then
      match asStr action with
      | .error e => (s, .error e)
      | .ok a => (s, env.commCall a)
    else if name = "CalendarAgent" then
      match asStr action with
      | .error e => (s, .error e)
      | .ok a =>
        match env.calendarCall a with
        | .ok r => (s, .ok ("Event: " ++ r))
        | .error e => (s, .error e)
    else (s, .ok ("Task completed by " ++ name))
  | other => (s, .ok ("Task completed by " ++ pyStr other))

/-- `StepOutcome` of the spec's data model: the outcome text of one step, and
whether the step's dispatch raised (the executor's except path). -/
structure StepOutcome where
  text : String
  isError : Bool

/-- The except block of `_execute_step` (src/orchestrator.py:143-145):
broadcast the error-level log (itself able to raise, in which case the
exception escapes the step) and return the `"Error: "` outcome. -/
def stepExcept (sink : Sink) (agent : JsonValue) (e : String) (s : ExecState) :
    ExecState × Except String StepOutcome :=
  let (s', r) := broadcast sink (.log (pyStr agent) ("Error: " ++ e) "error") s
  match r with
  | .ok () => (s', .ok ⟨"Error: " ++ e, true⟩)
  | .error e2 => (s', .error e2)

/-- `_execute_step` (src/orchestrator.py:102-145). The in-progress broadcast
is outside the try; the dispatch, the completed broadcast and the outcome log
are inside it; the except block logs at error level and returns
`"Error: " + str(e)`. An `.error` result is an exception escaping
`_execute_step` itself. -/
def executeStep (env : Env) (sink : Sink) (agent action : JsonValue) (s : ExecState) :
    ExecState × Except String StepOutcome :=
  let (s1, r1) := broadcast sink (.statusUpdate action "in-progress") s
  match r1 with
  | .error e => (s1, .error e)
  | .ok () =>
    let (s2, r2) := dispatch env sink agent action s1
    match r2 with
    | .ok msg =>
      let (s3, r3) := broadcast sink (.statusUpdate action "completed") s2
      match r3 with
      | .error e => stepExcept sink agent e s3
      | .ok () =>
        let (s4, r4) := broadcast sink (.log (pyStr agent) msg "info") s3
        match r4 with
        | .error e => stepExcept sink agent e s4
        | .ok () => (s4, .ok ⟨msg, false⟩)
    | .error e => stepExcept sink agent e s2

/-- `step["agent"]` and `step["action"]` (src/orchestrator.py:91-92): a
non-object step or a missing key raises (TypeError / KeyError) outside every
try block. -/
def stepFields : JsonValue → Except String (JsonValue × JsonValue)
  | .obj fields =>
    match dictGet fields "agent" with
    | none => .error "KeyError: agent"
    | some a =>
      match dictGet fields "action" with
      | none => .error "KeyError: action"
      | some b => .ok (a, b)
  | _ => .error "TypeError: step is not a JSON object"

/-- `agent_name in ["CommunicationAgent", "SlackAgent"]`
(src/orchestrator.py:94); false for every non-string agent value. -/
def isContextAgent : JsonValue → Bool
  | .str s => s == "CommunicationAgent" || s == "SlackAgent"
  | _ => false

/-- The context injection of `execute_plan` (src/orchestrator.py:94-95):
`action = f"{action}. Info: {context}"` exactly when the context is non-empty
and the agent is context-consuming. -/
def augmentAction (context : String) (agent action : JsonValue) : JsonValue :=
  if context ≠ "" ∧ isContextAgent agent then
    .str (pyStr action ++ ". Info: " ++ context)
  else action

/-- The step loop of `execute_plan` (src/orchestrator.py:89-98): extract the
step's fields (raising on a malformed step), inject the context, run the
step, and thread the outcome text forward as the new context. -/
def execLoop (env : Env) (sink : Sink) :
    List JsonValue → String → ExecState → ExecState × Except String Unit
  | [], _, s => (s, .ok ())
  | step :: rest, context, s =>
    match stepFields step with
    | .error e => (s, .error e)
    | .ok (agent, action) =>
      match executeStep env sink agent (augmentAction context agent action) s with
      | (s', .ok outcome) => execLoop env sink rest outcome.text s'
      | (s', .error e) => (s', .error e)

/-- The except block of `execute_plan` (src/orchestrator.py:81-83): publish
the "Planning failed" error log (itself able to raise) and return. -/
def planningFailed (sink : Sink) (e : String) (s : ExecState) : ExecState × Except String Unit :=
  broadcast sink (.log "System" ("Planning failed: " ++ e) "error") s

/-- The tail of `execute_plan` after the step loop (src/orchestrator.py:100):
publish the final success log, or propagate an exception from the loop. -/
def finishPlan (sink : Sink) : ExecState × Except String Unit → ExecState × Except String Unit
  | (s, .ok ()) => broadcast sink (.log "System" "All tasks done!" "success") s
  | (s, .error e) => (s, .error e)

/-- `execute_plan` (src/orchestrator.py:76-100). `planner` is the outcome of
`_groq_request`; `store0` the knowledge records present on disk at
construction. The try block covers the initial planning log and the planner
call; the plan event, the step loop and the final success log are outside
it. An `.error` result is an exception raising outward past `execute_plan`. -/
def executePlan (env : Env) (sink : Sink) (store0 : List (String × String))
    (planner : Except String JsonValue) : ExecState × Except String Unit :=
  let s0 : ExecState := ⟨store0, [], 0⟩
  let (s1, r1) := broadcast sink (.log "PlannerAgent" "Groq is planning..." "info") s0
  match r1 with
  | .error e => planningFailed sink e s1
  | .ok () =>
    match planner with
    | .error e => planningFailed sink e s1
    | .ok p =>
      let plan := normalizePlan p
      let (s2, r2) := broadcast sink (.planEvent plan) s1
      match r2 with
      | .error e => (s2, .error e)
      | .ok () => finishPlan sink (execLoop env sink plan "" s2)

/-! ### Concrete fixtures for closed runs -/

/-- A sink on which every broadcast call succeeds (healthy connections). -/
def sinkT : Sink := fun _ => true

/-- An environment whose external calls all return fixed strings and whose
file writes succeed. -/
def envT : Env :=
  ⟨fun _ => .ok "knowledge reply", fun _ => .ok "search results",
   fun _ => .ok "slack posted", fun _ => .ok "sms sent",
   fun _ => .ok "event made", none⟩

/-- `envT` with the Slack client call raising. -/
def envSlackBoom : Env := { envT with slackCall := fun _ => .error "boom" }

/-- `envT` with the search call returning a whitespace-padded result. -/
def envSearchPad : Env := { envT with searchCall := fun _ => .ok " x " }

/-- A well-formed Slack plan step. -/
def slackStep : JsonValue :=
  .obj [("agent", .str "SlackAgent"), ("action", .str "Post update")]

/-- A chat-completion response body whose message content is `content`. -/
def chatBody (content : String) : JsonValue :=
  .obj [("choices", .arr [.obj [("message", .obj [("content", .str content)])]])]

/-- Finite model of Python's `json.loads` (standard library, external to the
repository) on the two content literals exercised by the concrete runs below:
`json.loads("[]")` is the empty list and `json.loads("3")` is the number 3. -/
def loadsLit : String → Option JsonValue := fun s =>
  if s = "[]" then some (.arr []) else if s = "3" then some (.num 3) else none

/-- Every planning attempt is rate-limited, and the 429 response body happens
to be a well-formed chat completion whose content is an empty JSON plan. -/
def resps429 : Nat → HttpResp := fun _ => ⟨429, some (chatBody "[]")⟩

/-- A successful planning response whose message content is the JSON scalar
`3`. -/
def respsNum : Nat → HttpResp := fun _ => ⟨200, some (chatBody "3")⟩

/-- The message body as claim C8's words describe it: the instruction text
after the (first) matched number, minus leading punctuation, truncated to 160
characters. This definition follows the claim's sentence, not the source, and
exists only to be compared against `commParse`. -/
def claimBodyC8 (action : String) (m : List Char) : String :=
  String.mk (((afterFirst m action.data).dropWhile isColonSpace).take 160)

/-! ## Theorems -/

/-- C10: for every query string and language-model behaviour, if the
knowledge store's loaded text is empty, `KnowledgeAgent.run` returns exactly
"Knowledge base is empty. I don't have internal info on this." and performs
no language-model request. -/
theorem c10_empty_knowledge_short_circuits
    (lm : String → Except String String) (query : String) :
    knowledgeRun "" lm query
      = ("Knowledge base is empty. I don't have internal info on this.", false) := rfl

/-- C3 counterexample: the planner parse does not raise on a JSON scalar — a
response whose message content is the JSON number `3` is accepted and
normalized to the one-element plan `[3]`, whereas the claim requires a
`PlanningError` for every shape other than a list or an object with a `steps`
key. -/
theorem c3_scalar_accepted :
    groqRequest loadsLit true respsNum = .ok (.num 3) ∧
      normalizePlan (.num 3) = [.num 3] := ⟨rfl, rfl⟩

/-- C3 (amended): the parse of a successfully decoded planner response never
raises: a bare list is the plan; an object's `steps` value, when present, is
taken as the plan (and normalized); an object without `steps`, or any scalar,
is normalized into a one-element plan. Only an unparseable body raises. -/
theorem c3_parse_shapes :
    (∀ xs, normalizePlan (parsePlanResult (.arr xs)) = xs) ∧
    (∀ fields w, dictGet fields "steps" = some w →
        normalizePlan (parsePlanResult (.obj fields)) = normalizePlan w) ∧
    (∀ fields, dictGet fields "steps" = none →
        normalizePlan (parsePlanResult (.obj fields)) = [.obj fields]) ∧
    (∀ v : JsonValue, (∀ xs, v ≠ .arr xs) → (∀ fields, v ≠ .obj fields) →
        normalizePlan (parsePlanResult v) = [v]) := by
  refine ⟨fun xs => rfl, ?_, ?_, ?_⟩
  · intro fields w h
    simp [parsePlanResult, h]
  · intro fields h
    simp [parsePlanResult, h, normalizePlan]
  · intro v hxs hobj
    cases v with
    | arr xs => exact absurd rfl (hxs xs)
    | obj fields => exact absurd rfl (hobj fields)
    | null => rfl
    | bool b => rfl
    | num n => rfl
    | str s => rfl

/-- C3 witness: the steps-object shape at a concrete input. -/
theorem c3_parse_shapes_witness :
    normalizePlan (parsePlanResult (.obj [("steps", .arr [.str "s"])]))
      = normalizePlan (.arr [.str "s"]) :=
  c3_parse_shapes.2.1 [("steps", .arr [.str "s"])] (.arr [.str "s"]) rfl

/-- C9: the code contradicts the claim. When all three planning attempts
return HTTP 429 but the final 429 body happens to parse as a chat completion
carrying an empty JSON plan, `_groq_request` does not raise: the exhausted
retry loop falls through and the rate-limited response's body is used as a
successful completion, so the run broadcasts no error log, emits no
`StepStatus`, and ends with the final success log. -/
theorem c9_triple_429_falls_through :
    (resps429 0).status = 429 ∧ (resps429 1).status = 429 ∧ (resps429 2).status = 429 ∧
    groqRequest loadsLit true resps429 = .ok (.arr []) ∧
    executePlan envT sinkT [] (groqRequest loadsLit true resps429)
      = (⟨[], [.log "PlannerAgent" "Groq is planning..." "info", .planEvent [],
           .log "System" "All tasks done!" "success"], 3⟩, .ok ()) :=
  ⟨rfl, rfl, rfl, rfl, rfl⟩

/-- A broadcast on a sink that never fails publishes its event and returns
normally. -/
theorem broadcast_total (sink : Sink) (hsink : ∀ n, sink n = true) (e : Event) (s : ExecState) :
    broadcast sink e s = (pushEvent e s, .ok ()) := by
  simp [broadcast, hsink]

/-- Under a never-failing sink, `_execute_step` always returns normally:
every dispatch exception is caught at the step boundary. -/
theorem executeStep_total (env : Env) (sink : Sink) (hsink : ∀ n, sink n = true)
    (agent action : JsonValue) (s : ExecState) :
    ∃ s' out, executeStep env sink agent action s = (s', .ok out) := by
  rcases hd : dispatch env sink agent action (pushEvent (.statusUpdate action "in-progress") s)
    with ⟨s2, r2⟩
  cases r2 with
  | ok msg =>
    refine ⟨pushEvent (.log (pyStr agent) msg "info")
      (pushEvent (.statusUpdate action "completed") s2), ⟨msg, false⟩, ?_⟩
    simp [executeStep, broadcast_total sink hsink, hd]
  | error e =>
    refine ⟨pushEvent (.log (pyStr agent) ("Error: " ++ e) "error") s2,
      ⟨"Error: " ++ e, true⟩, ?_⟩
    simp [executeStep, broadcast_total sink hsink, hd, stepExcept]

/-- Under a never-failing sink, a plan all of whose steps are well-formed
JSON objects runs to completion. -/
theorem execLoop_total (env : Env) (sink : Sink) (hsink : ∀ n, sink n = true) :
    ∀ (steps : List JsonValue) (context : String) (s : ExecState),
      (∀ step ∈ steps, ∃ a b, stepFields step = .ok (a, b)) →
      ∃ s', execLoop env sink steps context s = (s', .ok ()) := by
  intro steps
  induction steps with
  | nil => exact fun context s _ => ⟨s, rfl⟩
  | cons step rest ih =>
    intro context s hwf
    obtain ⟨a, b, hab⟩ := hwf step (List.mem_cons_self _ _)
    obtain ⟨s', out, hstep⟩ := executeStep_total env sink hsink a (augmentAction context a b) s
    obtain ⟨s'', hrest⟩ := ih out.text s' (fun st hst => hwf st (List.mem_cons_of_mem _ hst))
    exact ⟨s'', by simp [execLoop, hab, hstep, hrest]⟩

/-- C1 (amended): provided every broadcast returns normally and every plan
step is a JSON object carrying `agent` and `action` keys, `execute_plan`
never raises outward — per-step capability failures become error logs — and
the event stream ends either with the "Planning failed" error log or with
the final success log. (Unqualified, the claim fails; see the
counterexample.) -/
theorem c1_no_outward_raise (env : Env) (sink : Sink) (store0 : List (String × String))
    (planner : Except String JsonValue)
    (hsink : ∀ n, sink n = true)
    (hsteps : ∀ p, planner = .ok p →
      ∀ step ∈ normalizePlan p, ∃ a b, stepFields step = .ok (a, b)) :
    (executePlan env sink store0 planner).2 = .ok () ∧
    ((∃ l e, (executePlan env sink store0 planner).1.events
        = l ++ [.log "System" ("Planning failed: " ++ e) "error"]) ∨
     (∃ l, (executePlan env sink store0 planner).1.events
        = l ++ [.log "System" "All tasks done!" "success"])) := by
  cases planner with
  | error e =>
    refine ⟨by simp [executePlan, planningFailed, broadcast_total sink hsink], Or.inl ?_⟩
    exact ⟨[.log "PlannerAgent" "Groq is planning..." "info"], e,
      by simp [executePlan, planningFailed, broadcast_total sink hsink, pushEvent]⟩
  | ok p =>
    obtain ⟨s', hloop⟩ := execLoop_total env sink hsink (normalizePlan p) ""
      ⟨store0, [.log "PlannerAgent" "Groq is planning..." "info",
        .planEvent (normalizePlan p)], 2⟩
      (hsteps p rfl)
    refine ⟨?_, Or.inr ⟨s'.events, ?_⟩⟩ <;>
      simp [executePlan, broadcast_total sink hsink, pushEvent, hloop, finishPlan]

/-- C1 witness of the amended theorem at a concrete healthy run. -/
theorem c1_no_outward_raise_witness :
    (executePlan envT sinkT [] (.ok (.arr []))).2 = .ok () ∧
    ((∃ l e, (executePlan envT sinkT [] (.ok (.arr []))).1.events
        = l ++ [.log "System" ("Planning failed: " ++ e) "error"]) ∨
     (∃ l, (executePlan envT sinkT [] (.ok (.arr []))).1.events
        = l ++ [.log "System" "All tasks done!" "success"])) :=
  c1_no_outward_raise envT sinkT [] (.ok (.arr [])) (fun _ => rfl)
    (by
      intro p hp step hstep
      injection hp with h
      subst h
      simp [normalizePlan] at hstep)

/-- C1 counterexample: with every broadcast succeeding, a plan whose single
step is the JSON string "x" — a shape the planner parse happily returns —
makes `execute_plan` raise outward: `step["agent"]` raises outside every try
block, and the event stream ends with neither a planning-failure log nor a
success log. -/
theorem c1_counterexample :
    executePlan envT sinkT [] (.ok (.arr [.str "x"]))
      = (⟨[], [.log "PlannerAgent" "Groq is planning..." "info", .planEvent [.str "x"]], 2⟩,
         .error "TypeError: step is not a JSON object") := rfl

/-- C2: when the capability call of a step raises (dispatch ends in the
except path) and broadcasts succeed, the executor produces the outcome
`StepOutcome(text = "Error: " + message, is_error = true)` together with the
error-level log, and the loop proceeds with the remaining steps — one step's
failure never aborts the remainder of the plan. -/
theorem c2_step_failure_isolated (env : Env) (sink : Sink)
    (step agent action : JsonValue) (rest : List JsonValue) (context : String)
    (s s2 : ExecState) (e : String)
    (hsink : ∀ n, sink n = true)
    (hstep : stepFields step = .ok (agent, action))
    (hdisp : dispatch env sink agent (augmentAction context agent action)
        (pushEvent (.statusUpdate (augmentAction context agent action) "in-progress") s)
      = (s2, .error e)) :
    executeStep env sink agent (augmentAction context agent action) s
      = (pushEvent (.log (pyStr agent) ("Error: " ++ e) "error") s2,
         .ok ⟨"Error: " ++ e, true⟩) ∧
    execLoop env sink (step :: rest) context s
      = execLoop env sink rest ("Error: " ++ e)
          (pushEvent (.log (pyStr agent) ("Error: " ++ e) "error") s2) := by
  have hes : executeStep env sink agent (augmentAction context agent action) s
      = (pushEvent (.log (pyStr agent) ("Error: " ++ e) "error") s2,
         .ok ⟨"Error: " ++ e, true⟩) := by
    simp [executeStep, broadcast_total sink hsink, hdisp, stepExcept]
  exact ⟨hes, by simp [execLoop, hstep, hes]⟩

/-- C2 witness: a Slack step whose client call raises "boom" in an otherwise
healthy run. -/
theorem c2_step_failure_isolated_witness :
    executeStep envSlackBoom sinkT (.str "SlackAgent")
        (augmentAction "" (.str "SlackAgent") (.str "Post update")) ⟨[], [], 0⟩
      = (pushEvent (.log (pyStr (.str "SlackAgent")) ("Error: " ++ "boom") "error")
           (pushEvent (.statusUpdate (augmentAction "" (.str "SlackAgent") (.str "Post update"))
             "in-progress") ⟨[], [], 0⟩),
         .ok ⟨"Error: " ++ "boom", true⟩) ∧
    execLoop envSlackBoom sinkT (slackStep :: []) "" ⟨[], [], 0⟩
      = execLoop envSlackBoom sinkT [] ("Error: " ++ "boom")
          (pushEvent (.log (pyStr (.str "SlackAgent")) ("Error: " ++ "boom") "error")
            (pushEvent (.statusUpdate (augmentAction "" (.str "SlackAgent") (.str "Post update"))
              "in-progress") ⟨[], [], 0⟩)) :=
  c2_step_failure_isolated envSlackBoom sinkT slackStep (.str "SlackAgent") (.str "Post update")
    [] "" ⟨[], [], 0⟩ _ "boom" (fun _ => rfl) rfl rfl

/-- C4 (amended): with broadcasts succeeding, every step publishes its
in-progress `StepStatus` before dispatch; when dispatch returns normally, a
completed `StepStatus` and an info-level `Log` with the outcome text follow;
when dispatch raises, only the error-level `Log` with text
`"Error: " + message` is published — no completed `StepStatus` is emitted for
that step. (The claim as stated, with a completed status after an error
outcome, fails; see the counterexample.) -/
theorem c4_step_events (env : Env) (sink : Sink) (agent action : JsonValue) (s : ExecState)
    (hsink : ∀ n, sink n = true) :
    (∀ s2 msg,
      dispatch env sink agent action (pushEvent (.statusUpdate action "in-progress") s)
          = (s2, .ok msg) →
      executeStep env sink agent action s
        = (pushEvent (.log (pyStr agent) msg "info")
            (pushEvent (.statusUpdate action "completed") s2), .ok ⟨msg, false⟩)) ∧
    (∀ s2 e,
      dispatch env sink agent action (pushEvent (.statusUpdate action "in-progress") s)
          = (s2, .error e) →
      executeStep env sink agent action s
        = (pushEvent (.log (pyStr agent) ("Error: " ++ e) "error") s2,
           .ok ⟨"Error: " ++ e, true⟩)) := by
  constructor
  · intro s2 msg hd
    simp [executeStep, broadcast_total sink hsink, hd]
  · intro s2 e hd
    simp [executeStep, broadcast_total sink hsink, hd, stepExcept]

/-- C4 witness: the normal-dispatch discipline at a concrete healthy Slack
step. -/
theorem c4_step_events_witness :
    executeStep envT sinkT (.str "SlackAgent") (.str "Post update") ⟨[], [], 0⟩
      = (pushEvent (.log (pyStr (.str "SlackAgent")) "slack posted" "info")
          (pushEvent (.statusUpdate (.str "Post update") "completed")
            (pushEvent (.statusUpdate (.str "Post update") "in-progress") ⟨[], [], 0⟩)),
         .ok ⟨"slack posted", false⟩) :=
  (c4_step_events envT sinkT (.str "SlackAgent") (.str "Post update") ⟨[], [], 0⟩
    (fun _ => rfl)).1 _ "slack posted" rfl

/-- C4 counterexample: when the capability call raises, the step's published
events are exactly the in-progress status and the error log — no completed
`StepStatus` is ever emitted, although the claim requires one after every
dispatch. -/
theorem c4_counterexample :
    executeStep envSlackBoom sinkT (.str "SlackAgent") (.str "Post update") ⟨[], [], 0⟩
      = (⟨[], [.statusUpdate (.str "Post update") "in-progress",
            .log "SlackAgent" "Error: boom" "error"], 2⟩, .ok ⟨"Error: boom", true⟩) ∧
    (∀ a : JsonValue,
      Event.statusUpdate a "completed" ∉
        (executeStep envSlackBoom sinkT (.str "SlackAgent")
          (.str "Post update") ⟨[], [], 0⟩).1.events) := by
  refine ⟨rfl, ?_⟩
  intro a h
  have hev : (executeStep envSlackBoom sinkT (.str "SlackAgent")
      (.str "Post update") ⟨[], [], 0⟩).1.events
      = [.statusUpdate (.str "Post update") "in-progress",
         .log "SlackAgent" "Error: boom" "error"] := rfl
  rw [hev] at h
  simp only [List.mem_cons, List.not_mem_nil, or_false] at h
  rcases h with h | h
  · injection h with h1 h2
    exact absurd h2 (by decide)
  · exact Event.noConfusion h

/-- C5: the execution context starts empty — after the planning broadcasts,
`execute_plan` enters the loop with context `""` — and at every step the text
`". Info: " + context` is appended to the instruction exactly when the
context is non-empty and the agent is `CommunicationAgent` or `SlackAgent`;
after the step, the loop continues with the context set to the step's outcome
text, whether that outcome was an error or a success. -/
theorem c5_context_threading (env : Env) (sink : Sink) (store0 : List (String × String))
    (hsink : ∀ n, sink n = true) :
    (∀ p : JsonValue, executePlan env sink store0 (.ok p)
        = finishPlan sink (execLoop env sink (normalizePlan p) ""
            ⟨store0, [.log "PlannerAgent" "Groq is planning..." "info",
              .planEvent (normalizePlan p)], 2⟩)) ∧
    (∀ step agent action rest context s, stepFields step = .ok (agent, action) →
      ∃ s' out, executeStep env sink agent
          (if context ≠ "" ∧ isContextAgent agent
           then .str (pyStr action ++ ". Info: " ++ context) else action) s = (s', .ok out) ∧
        execLoop env sink (step :: rest) context s = execLoop env sink rest out.text s') := by
  constructor
  · intro p
    simp [executePlan, broadcast_total sink hsink, pushEvent]
  · intro step agent action rest context s hstep
    obtain ⟨s', out, h⟩ := executeStep_total env sink hsink agent
      (augmentAction context agent action) s
    refine ⟨s', out, h, ?_⟩
    simp [execLoop, hstep, h]

/-- C5 witness: a context-consuming step at a concrete input: the prior
outcome "prev" is injected into a Slack step's instruction. -/
theorem c5_context_threading_witness :
    ∃ s' out, executeStep envT sinkT (.str "SlackAgent")
        (if ("prev" : String) ≠ "" ∧ isContextAgent (.str "SlackAgent")
         then .str (pyStr (.str "Post update") ++ ". Info: " ++ "prev")
         else .str "Post update") ⟨[], [], 0⟩ = (s', .ok out) ∧
      execLoop envT sinkT (slackStep :: []) "prev" ⟨[], [], 0⟩
        = execLoop envT sinkT [] out.text s' :=
  (c5_context_threading envT sinkT [] (fun _ => rfl)).2 slackStep (.str "SlackAgent")
    (.str "Post update") [] "prev" ⟨[], [], 0⟩ rfl

/-- `add_knowledge`'s filename sanitization is the identity on names already
sanitized by the auto-save derivation (alphanumerics and underscores are kept
by `[^a-zA-Z0-9_-]`). -/
theorem sanitizeFilename_sanitizeQuery (s : String) :
    sanitizeFilename (sanitizeQuery s) = sanitizeQuery s := by
  unfold sanitizeFilename sanitizeQuery
  refine congrArg String.mk ?_
  rw [List.map_map]
  refine List.map_congr_left ?_
  intro c _
  by_cases h : isAsciiAlnum c <;> simp [h]

/-- C6 (amended): after every Search step whose instruction is a string and
whose search call returns normally (with the file write and the broadcast
succeeding), exactly one knowledge record is created or updated: its key is
the first 20 characters of the instruction with every non-alphanumeric
character replaced by `_` (plus the `.txt` extension), its content is the
search outcome text with surrounding whitespace stripped
(`f.write(content.strip())`), and exactly one informational auto-save log is
published. (Content equal to the raw outcome text fails; see the
counterexample.) -/
theorem c6_search_autosave (env : Env) (sink : Sink) (a : String) (s : ExecState) (msg : String)
    (hsink : ∀ n, sink n = true) (hfs : env.fsError = none)
    (hsearch : env.searchCall a = .ok msg) :
    dispatch env sink (.str "SearchAgent") (.str a) s
      = ({ store := storeSet s.store (sanitizeQuery (a.take 20) ++ ".txt") (pyStrip msg),
           events := s.events
             ++ [.log "KnowledgeAgent"
                  ("Auto-saved results for '" ++ a ++ "' to knowledge base.") "info"],
           sent := s.sent + 1 }, .ok msg) := by
  simp [dispatch, asStr, hsearch, addKnowledge, hfs, broadcast_total sink hsink, pushEvent,
    sanitizeFilename_sanitizeQuery]

/-- C6 witness: the auto-save shape at a concrete healthy search step. -/
theorem c6_search_autosave_witness :
    dispatch envT sinkT (.str "SearchAgent") (.str "Search for q") ⟨[], [], 0⟩
      = ({ store := storeSet [] (sanitizeQuery (("Search for q").take 20) ++ ".txt")
             (pyStrip "search results"),
           events := [] ++ [.log "KnowledgeAgent"
             ("Auto-saved results for '" ++ "Search for q" ++ "' to knowledge base.") "info"],
           sent := 0 + 1 }, .ok "search results") :=
  c6_search_autosave envT sinkT "Search for q" ⟨[], [], 0⟩ "search results"
    (fun _ => rfl) rfl rfl

/-- C6 counterexample: the stored record's content is the stripped outcome
text, not the outcome text itself — a search outcome `" x "` is stored as
`"x"`. -/
theorem c6_counterexample :
    dispatch envSearchPad sinkT (.str "SearchAgent") (.str "Search for q") ⟨[], [], 0⟩
      = (⟨[("Search_for_q.txt", "x")],
          [.log "KnowledgeAgent" "Auto-saved results for 'Search for q' to knowledge base."
            "info"], 1⟩, .ok " x ") ∧
    ("x" : String) ≠ " x " := ⟨rfl, by decide⟩

/-- Whitespace characters are unchanged by lowercasing. -/
theorem pySpace_toLower (c : Char) (h : pySpace c = true) : c.toLower = c := by
  have hc : c = ' ' ∨ c = '\t' ∨ c = '\n' ∨ c = '\x0b' ∨ c = '\x0c' ∨ c = '\r' := by
    simpa [pySpace, or_assoc] using h
  rcases hc with h | h | h | h | h | h <;> subst h <;> decide

/-- A character whose lowercase form is a non-whitespace character is itself
non-whitespace. -/
theorem pySpace_eq_false_of_toLower (c x : Char) (hx : c.toLower = x)
    (hxs : pySpace x = false) : pySpace c = false := by
  by_contra h
  rw [Bool.not_eq_false] at h
  have hc : c = x := (pySpace_toLower c h).symm.trans hx
  subst hc
  rw [h] at hxs
  cases hxs

/-- A case-insensitive literal consumes exactly a block whose lowercasing is
the literal. -/
theorem litCI_append (lit : List Char) :
    ∀ (l rest : List Char), l.map Char.toLower = lit → litCI lit (l ++ rest) = some rest := by
  induction lit with
  | nil =>
    intro l rest h
    rw [List.map_eq_nil_iff] at h
    subst h
    rfl
  | cons x xs ih =>
    intro l rest h
    cases l with
    | nil => simp at h
    | cons c cs =>
      simp only [List.map_cons, List.cons.injEq] at h
      obtain ⟨h1, h2⟩ := h
      simp [litCI, h1, ih cs rest h2]

/-- The lazy message scan absorbs a quote-free, newline-free block into the
accumulator. -/
theorem slackMsg_append (X : List Char) (hX : ∀ c ∈ X, isQuote c = false ∧ c ≠ '\n') :
    ∀ acc rest, slackMsg acc (X ++ rest) = slackMsg (acc ++ X) rest := by
  induction X with
  | nil => intro acc rest; simp
  | cons x xs ih =>
    intro acc rest
    have hx : isQuote x = false := (hX x (List.mem_cons_self _ _)).1
    have hn : x ≠ '\n' := (hX x (List.mem_cons_self _ _)).2
    have hxs : ∀ c ∈ xs, isQuote c = false ∧ c ≠ '\n' :=
      fun c hc => hX c (List.mem_cons_of_mem _ hc)
    rw [List.cons_append]
    rw [show slackMsg acc (x :: (xs ++ rest)) = slackMsg (acc ++ [x]) (xs ++ rest) by
      simp [slackMsg, hx, hn]]
    rw [ih hxs (acc ++ [x]) rest, List.append_cons acc x xs]

/-- Destructure a two-character case-insensitive literal equation. -/
theorem map_toLower_pair {T : List Char} {x y : Char}
    (h : T.map Char.toLower = [x, y]) :
    ∃ a b, T = [a, b] ∧ a.toLower = x ∧ b.toLower = y := by
  cases T with
  | nil => simp at h
  | cons a T1 =>
    cases T1 with
    | nil => simp at h
    | cons b T2 =>
      cases T2 with
      | cons c T3 => simp at h
      | nil =>
        simp only [List.map_cons, List.map_nil, List.cons.injEq, and_true] at h
        exact ⟨a, b, rfl, h.1, h.2⟩

/-- Destructure a four-character case-insensitive literal equation. -/
theorem map_toLower_quad {P : List Char} {x y z w : Char}
    (h : P.map Char.toLower = [x, y, z, w]) :
    ∃ a b c d, P = [a, b, c, d] := by
  cases P with
  | nil => simp at h
  | cons a P1 =>
    cases P1 with
    | nil => simp at h
    | cons b P2 =>
      cases P2 with
      | nil => simp at h
      | cons c P3 =>
        cases P3 with
        | nil => simp at h
        | cons d P4 =>
          cases P4 with
          | cons e P5 => simp at h
          | nil => exact ⟨a, b, c, d, rfl⟩

/-- The Slack tail matcher on the canonical shape after the closing quote:
one space, a casing of "to", one space, then `#` and the channel. -/
theorem slackTail_template (T Y : List Char)
    (hT : T.map Char.toLower = ['t', 'o']) (hY : Y ≠ [])
    (hYs : ∀ c ∈ Y, pySpace c = false) :
    slackTail (' ' :: (T ++ (' ' :: '#' :: Y))) = some (String.mk ('#' :: Y)) := by
  obtain ⟨a, b, rfl, ha, hb⟩ := map_toLower_pair hT
  have hsp : pySpace a = false := pySpace_eq_false_of_toLower a 't' ha (by decide)
  have hsA : pySpace ' ' = true := by decide
  have hsH : pySpace '#' = false := by decide
  have h1 : wsPlus (' ' :: ([a, b] ++ (' ' :: '#' :: Y))) = some ([a, b] ++ (' ' :: '#' :: Y)) := by
    simp [wsPlus, hsA, List.dropWhile_cons, hsp]
  have h2 : litCI ['t', 'o'] ([a, b] ++ (' ' :: '#' :: Y)) = some (' ' :: '#' :: Y) :=
    litCI_append ['t', 'o'] [a, b] (' ' :: '#' :: Y) (by simp [ha, hb])
  have h3 : wsPlus (' ' :: '#' :: Y) = some ('#' :: Y) := by
    simp [wsPlus, hsA, List.dropWhile_cons, hsH]
  have h4 : Y.takeWhile (fun c => !pySpace c) = Y :=
    List.takeWhile_eq_self_iff.mpr (by intro x hx; simp [hYs x hx])
  simp only [slackTail, List.cons_append, List.nil_append] at h1 h2 h3 ⊢
  simp only [h1, h2, h3, h4, List.isEmpty_eq_false.mpr hY, Bool.false_eq_true, if_false]

/-- One unfolding of the leftmost-search loop of the Slack pattern. -/
theorem slackFind_cons (c : Char) (cs : List Char) :
    slackFind (c :: cs) = match slackAttempt (c :: cs) with
      | some r => some r
      | none => slackFind cs := rfl

/-- One anchored Slack attempt on the canonical instruction shape. -/
theorem slackAttempt_template (P T X Y : List Char) (q : Char)
    (hP : P.map Char.toLower = ['p', 'o', 's', 't'])
    (hT : T.map Char.toLower = ['t', 'o'])
    (hq : q = '"' ∨ q = '\'')
    (hX : X ≠ []) (hXq : ∀ c ∈ X, isQuote c = false ∧ c ≠ '\n')
    (hY : Y ≠ []) (hYs : ∀ c ∈ Y, pySpace c = false) :
    slackAttempt (P ++ (' ' :: q :: (X ++ (q :: ' ' :: (T ++ (' ' :: '#' :: Y))))))
      = some (String.mk X, String.mk ('#' :: Y)) := by
  have hqq : isQuote q = true := by rcases hq with h | h <;> subst h <;> decide
  have hqs : pySpace q = false := by rcases hq with h | h <;> subst h <;> decide
  have hsA : pySpace ' ' = true := by decide
  have h1 : litCI ['p', 'o', 's', 't']
      (P ++ (' ' :: q :: (X ++ (q :: ' ' :: (T ++ (' ' :: '#' :: Y))))))
      = some (' ' :: q :: (X ++ (q :: ' ' :: (T ++ (' ' :: '#' :: Y))))) :=
    litCI_append ['p', 'o', 's', 't'] P _ hP
  have h2 : wsPlus (' ' :: q :: (X ++ (q :: ' ' :: (T ++ (' ' :: '#' :: Y)))))
      = some (q :: (X ++ (q :: ' ' :: (T ++ (' ' :: '#' :: Y))))) := by
    simp [wsPlus, hsA, List.dropWhile_cons, hqs]
  have h3 : slackMsg [] (X ++ (q :: ' ' :: (T ++ (' ' :: '#' :: Y))))
      = some (String.mk X, String.mk ('#' :: Y)) := by
    rw [slackMsg_append X hXq [] (q :: ' ' :: (T ++ (' ' :: '#' :: Y))), List.nil_append]
    cases X with
    | nil => exact absurd rfl hX
    | cons x xs =>
      simp only [slackMsg, hqq, List.isEmpty_eq_false.mpr hX, Bool.not_false, Bool.and_self,
        if_true, slackTail_template T Y hT hY hYs]
  simp only [slackAttempt, h1, h2, hqq, if_true, h3]

/-- The Slack pattern on the canonical instruction shape extracts exactly the
quoted message and the channel. -/
theorem slackFind_template (P T X Y : List Char) (q : Char)
    (hP : P.map Char.toLower = ['p', 'o', 's', 't'])
    (hT : T.map Char.toLower = ['t', 'o'])
    (hq : q = '"' ∨ q = '\'')
    (hX : X ≠ []) (hXq : ∀ c ∈ X, isQuote c = false ∧ c ≠ '\n')
    (hY : Y ≠ []) (hYs : ∀ c ∈ Y, pySpace c = false) :
    slackFind (P ++ (' ' :: q :: (X ++ (q :: ' ' :: (T ++ (' ' :: '#' :: Y))))))
      = some (String.mk X, String.mk ('#' :: Y)) := by
  have hattempt := slackAttempt_template P T X Y q hP hT hq hX hXq hY hYs
  obtain ⟨p1, p2, p3, p4, rfl⟩ := map_toLower_quad hP
  simp only [List.cons_append, List.nil_append] at hattempt ⊢
  rw [slackFind_cons, hattempt]

/-- C7 (amended): for every instruction of the form `Post "X" to #Y` — with
`Post` and `to` in any letter case, straight double or straight single quotes
around X, X non-empty and free of straight-quote and newline characters (the
pattern's dot does not match a newline), Y non-empty and free of whitespace —
the messaging interpreter extracts exactly the message X and the channel #Y;
a newline inside the quotes defeats the pattern; and whenever the pattern
does not match, the agent returns the fixed parse-error outcome describing
the expected format and does not throw. (Curly quotes are not recognized by
the `["\']` quote class; see the counterexample.) -/
theorem c7_slack_extraction :
    (∀ (P T X Y : String) (q : Char) (post : String → String → Except String Unit),
      P.data.map Char.toLower = ['p', 'o', 's', 't'] →
      T.data.map Char.toLower = ['t', 'o'] →
      q = '"' ∨ q = '\'' →
      X ≠ "" → (∀ c ∈ X.data, isQuote c = false ∧ c ≠ '\n') →
      Y ≠ "" → (∀ c ∈ Y.data, pySpace c = false) →
      slackFind (P ++ " " ++ String.singleton q ++ X ++ String.singleton q
          ++ " " ++ T ++ " #" ++ Y).data = some (X, "#" ++ Y) ∧
      slackExecute post (P ++ " " ++ String.singleton q ++ X ++ String.singleton q
          ++ " " ++ T ++ " #" ++ Y)
        = (match post ("#" ++ Y) X with
           | .ok _ => "Message successfully posted to " ++ ("#" ++ Y)
           | .error e => "Slack Error: " ++ e)) ∧
    (slackFind ("Post \"a\nb\" to #c").data = none) ∧
    (∀ (post : String → String → Except String Unit) (a : String),
      slackFind a.data = none →
      slackExecute post a
        = "Slack failed: Ensure format is 'Post \"message\" to #channel'") := by
  refine ⟨?_, rfl, ?_⟩
  · intro P T X Y q post hP hT hq hXne hXq hYne hYs
    have hXd : X.data ≠ [] := fun h => hXne (by
      cases X
      simp_all)
    have hYd : Y.data ≠ [] := fun h => hYne (by
      cases Y
      simp_all)
    have hsp : (" " : String).data = [' '] := rfl
    have hsh : (" #" : String).data = [' ', '#'] := rfl
    have hdata : (P ++ " " ++ String.singleton q ++ X ++ String.singleton q
        ++ " " ++ T ++ " #" ++ Y).data
        = P.data ++ (' ' :: q :: (X.data ++ (q :: ' ' :: (T.data
            ++ (' ' :: '#' :: Y.data))))) := by
      simp [String.data_append, hsp, hsh]
    have hfound := slackFind_template P.data T.data X.data Y.data q hP hT hq hXd hXq hYd hYs
    rw [← hdata] at hfound
    have hmk : (String.mk X.data, String.mk ('#' :: Y.data)) = (X, "#" ++ Y) := rfl
    rw [hmk] at hfound
    refine ⟨hfound, ?_⟩
    simp only [slackExecute, hfound]
    cases post ("#" ++ Y) X <;> rfl
  · intro post a hnone
    simp only [slackExecute, hnone]

/-- C7 witness: the canonical extraction at `Post "Hello" to #general` with a
succeeding Slack client. -/
theorem c7_slack_extraction_witness :
    slackFind ("Post" ++ " " ++ String.singleton '"' ++ "Hello" ++ String.singleton '"'
        ++ " " ++ "to" ++ " #" ++ "general").data = some ("Hello", "#" ++ "general") ∧
    slackExecute (fun _ _ => .ok ()) ("Post" ++ " " ++ String.singleton '"' ++ "Hello"
        ++ String.singleton '"' ++ " " ++ "to" ++ " #" ++ "general")
      = "Message successfully posted to " ++ ("#" ++ "general") :=
  c7_slack_extraction.1 "Post" "to" "Hello" "general" '"' (fun _ _ => .ok ())
    rfl rfl (Or.inl rfl) (by decide) (by decide) (by decide) (by decide)

/-- C7 counterexample: with curly quotes — which the claim says are handled —
the pattern does not match: the message and channel are not extracted and the
agent falls through to the parse-error outcome. -/
theorem c7_counterexample :
    slackFind ("Post “Hello” to #general").data = none ∧
    (∀ post : String → String → Except String Unit,
      slackExecute post "Post “Hello” to #general"
        = "Slack failed: Ensure format is 'Post \"message\" to #channel'") :=
  ⟨rfl, fun _ => rfl⟩

/-- A phone match is never the empty string (it contains at least a digit). -/
theorem phoneRun_ne_nil (pre rest : List Char) (m : List Char) (hpre : pre ≠ [])
    (h : phoneRun pre rest = some m) : m ≠ [] := by
  unfold phoneRun at h
  split at h
  · cases h
    exact List.append_ne_nil_of_left_ne_nil hpre _
  · cases h

/-- A successful anchored phone attempt yields a non-empty match. -/
theorem phoneAttempt_ne_nil (cs m : List Char) (h : phoneAttempt cs = some m) : m ≠ [] := by
  cases cs with
  | nil => cases h
  | cons c rest =>
    by_cases hc : c = '+'
    · subst hc
      cases rest with
      | nil => cases h
      | cons d rest2 =>
        simp only [phoneAttempt, if_pos rfl] at h
        by_cases hd : d.isDigit = true
        · rw [if_pos hd] at h
          exact phoneRun_ne_nil _ _ _ (by simp) h
        · rw [if_neg hd] at h
          cases h
    · simp only [phoneAttempt, if_neg hc] at h
      by_cases hd : c.isDigit = true
      · rw [if_pos hd] at h
        exact phoneRun_ne_nil _ _ _ (by simp) h
      · rw [if_neg hd] at h
        cases h

/-- A phone-pattern search never returns the empty match. -/
theorem phoneFind_ne_nil (cs m : List Char) (h : phoneFind cs = some m) : m ≠ [] := by
  induction cs with
  | nil => cases h
  | cons c rest ih =>
    rw [show phoneFind (c :: rest) = match phoneAttempt (c :: rest) with
        | some m => some m
        | none => phoneFind rest from rfl] at h
    rcases ha : phoneAttempt (c :: rest) with _ | m'
    · rw [ha] at h
      exact ih h
    · rw [ha] at h
      cases h
      exact phoneAttempt_ne_nil _ _ ha

/-- The final segment of a left-to-right split contains no occurrence of the
(non-empty) separator. -/
theorem lastSegF_no_occurrence (sep : List Char) (hs : sep ≠ []) :
    ∀ (fuel : Nat) (l : List Char), l.length ≤ fuel → ¬ sep <:+: lastSegF sep fuel l := by
  intro fuel
  induction fuel with
  | zero =>
    intro l hl
    have hnil : l = [] := List.length_eq_zero.mp (Nat.le_zero.mp hl)
    subst hnil
    intro hinf
    simp only [lastSegF] at hinf
    exact hs (List.infix_nil.mp hinf)
  | succ n ih =>
    intro l hl
    cases l with
    | nil =>
      intro hinf
      simp only [lastSegF] at hinf
      exact hs (List.infix_nil.mp hinf)
    | cons h t =>
      simp only [lastSegF, if_neg hs]
      split
      · rename_i hpre
        refine ih _ ?_
        simp only [List.length_drop, List.length_cons]
        have : 0 < sep.length := List.length_pos.mpr hs
        simp only [List.length_cons] at hl
        omega
      · split
        · refine ih _ ?_
          simp only [List.length_cons] at hl
          omega
        · rename_i hpre hmid
          intro hinf
          rcases List.infix_cons_iff.mp hinf with hp | hi
          · exact hpre (List.isPrefixOf_iff_prefix.mpr hp)
          · exact hmid hi

/-- `lastSeg` form of the no-occurrence property. -/
theorem lastSeg_no_occurrence (sep : List Char) (hs : sep ≠ []) (l : List Char) :
    ¬ sep <:+: lastSeg sep l :=
  lastSegF_no_occurrence sep hs l.length l (Nat.le_refl _)

/-- The stripped, truncated SMS body lies inside the final split segment. -/
theorem stripSet_take_within (p : Char → Bool) (l : List Char) (n : Nat) :
    (stripSet p l).take n <:+: l := by
  have h1 : l.dropWhile p <:+ l := List.dropWhile_suffix p
  have h3 : (l.dropWhile p).reverse.dropWhile p <:+ (l.dropWhile p).reverse :=
    List.dropWhile_suffix p
  have h2 : ((l.dropWhile p).reverse.dropWhile p).reverse <+: l.dropWhile p := by
    have h4 := List.reverse_prefix.mpr h3
    rwa [List.reverse_reverse] at h4
  have h5 : (stripSet p l).take n <+: stripSet p l := List.take_prefix n _
  have h6 : stripSet p l <:+: l :=
    List.IsInfix.trans ( List.IsPrefix.isInfix h2) ( List.IsSuffix.isInfix h1)
  exact List.IsInfix.trans ( List.IsPrefix.isInfix h5) h6

/-- C8 (amended): for every instruction containing a phone-number-shaped
substring (optional `+`, a digit, then 9 to 15 digits, spaces or hyphens),
the notification interpreter normalizes the first such substring to a
`+`-prefixed number, and hands Twilio a body that is the instruction text
after the last occurrence of the matched substring with colons and spaces
stripped from both ends, truncated to at most 160 characters and never
containing the matched number; when no number is found, or the Twilio client
is unconfigured, it returns the fixed descriptive failure outcome and never
throws. (The claim's exact body — the text after the matched number minus
leading punctuation only — fails; see the counterexample.) -/
theorem c8_phone_extraction :
    (∀ (action : String) (m : List Char), phoneFind action.data = some m →
      ∃ toNo body : String, commParse action = some (toNo, body) ∧
        toNo.data.head? = some '+' ∧
        body.length ≤ 160 ∧
        ¬ m <:+: body.data ∧
        (∀ create : String → String → Except String String,
          communicationRun true create action
            = (match create body toNo with
               | .ok sid => "SMS sent! SID: " ++ sid
               | .error e => "Twilio Error: " ++ e))) ∧
    (∀ (action : String) (configured : Bool)
        (create : String → String → Except String String),
      phoneFind action.data = none →
      communicationRun configured create action
        = "Communication failed: Ensure phone number is valid.") ∧
    (∀ (action : String) (create : String → String → Except String String),
      communicationRun false create action
        = "Communication failed: Ensure phone number is valid.") := by
  refine ⟨?_, ?_, ?_⟩
  · intro action m hm
    refine ⟨String.mk (if (m.filter (fun c => !(c == ' ' || c == '-'))).head? = some '+'
        then m.filter (fun c => !(c == ' ' || c == '-'))
        else '+' :: m.filter (fun c => !(c == ' ' || c == '-'))),
      String.mk ((stripSet isColonSpace (lastSeg m action.data)).take 160),
      ?_, ?_, ?_, ?_, ?_⟩
    · simp only [commParse, hm]
    · by_cases hhead : (m.filter (fun c => !(c == ' ' || c == '-'))).head? = some '+'
      · simp only [hhead, if_pos rfl]
        exact hhead
      · simp only [if_neg hhead]
        rfl
    · show ((stripSet isColonSpace (lastSeg m action.data)).take 160).length ≤ 160
      rw [List.length_take]
      exact Nat.min_le_left _ _
    · show ¬ m <:+: ((stripSet isColonSpace (lastSeg m action.data)).take 160)
      intro hinf
      have hno := lastSeg_no_occurrence m (phoneFind_ne_nil action.data m hm) action.data
      exact hno (List.IsInfix.trans hinf (stripSet_take_within isColonSpace _ 160))
    · intro create
      simp only [communicationRun, commParse, hm]
  · intro action configured create hm
    simp [communicationRun, commParse, hm]
  · intro action create
    rcases h : commParse action with _ | ⟨t, b⟩ <;> simp [communicationRun, h]

/-- C8 witness: the extraction at a concrete SMS instruction with a
`+`-prefixed number. -/
theorem c8_phone_extraction_witness :
    ∃ toNo body : String, commParse "Send SMS to +1234567890: hi" = some (toNo, body) ∧
      toNo.data.head? = some '+' ∧
      body.length ≤ 160 ∧
      ¬ ("+1234567890").data <:+: body.data ∧
      (∀ create : String → String → Except String String,
        communicationRun true create "Send SMS to +1234567890: hi"
          = (match create body toNo with
             | .ok sid => "SMS sent! SID: " ++ sid
             | .error e => "Twilio Error: " ++ e)) :=
  c8_phone_extraction.1 "Send SMS to +1234567890: hi" ("+1234567890").data rfl

/-- C8 counterexample: the body handed to Twilio is stripped of colons and
spaces on both ends (and split on the last occurrence), not merely of leading
punctuation: for `Send SMS to 1234567890: hi ` the code produces body "hi"
while the claim's description yields "hi ". -/
theorem c8_counterexample :
    phoneFind ("Send SMS to 1234567890: hi ").data = some (("1234567890").data) ∧
    commParse "Send SMS to 1234567890: hi " = some ("+1234567890", "hi") ∧
    claimBodyC8 "Send SMS to 1234567890: hi " (("1234567890").data) = "hi " ∧
    ("hi" : String) ≠ "hi " := ⟨rfl, rfl, rfl, by decide⟩

end TaskOrch

